import Mathlib

/-!
Verification of the GoodWe/AlphaESS/Amber control core (`control.py`).

Python floats are modelled as rationals, Python ints as integers, and
fallible operations return `Except`. `rhe` models Python 3's built-in
one-argument `round` (round half to even).
-/

/- ----------------------- Definitions ----------------------- -/

/-- Model of Python 3 `round` on one argument: round half to even. -/
def rhe (q : ℚ) : ℤ :=
  let n : ℤ := ⌊q⌋
  let f : ℚ := q - (n : ℚ)
  if f < 1/2 then n
  else if 1/2 < f then n + 1
  else if n % 2 = 0 then n else n + 1

/-- Model of `_clamp_int` from `control.py`. -/
def clamp_int (x lo hi : ℤ) : ℤ :=
  if x < lo then lo
  else if x > hi then hi
  else x

/-- Model of `_pct_from_watts` from `control.py`: convert a watt target to a
percentage of rated power, returning 0 for non-positive rated power and
clamping the rounded percentage to [0, 100]. -/
def pct_from_watts (target_w rated_w : ℤ) : ℤ :=
  if rated_w ≤ 0 then 0
  else
    let pct := rhe ((target_w : ℚ) / (rated_w : ℚ) * 100)
    if pct < 0 then 0
    else if pct > 100 then 100
    else pct

/-- Model of `_u16_to_i16` from `control.py`: two's-complement
reinterpretation of an unsigned 16-bit register value. -/
def u16_to_i16 (u : ℤ) : ℤ :=
  let v := u % 65536
  if 32768 ≤ v then v - 65536 else v

/-- Model of `_regs_to_i32` from `control.py`: compose two 16-bit registers
into a signed 32-bit value (high register shifted over the low one). -/
def regs_to_i32 (hi lo : ℤ) : ℤ :=
  let v := (hi % 65536) * 65536 + (lo % 65536)
  if 2147483648 ≤ v then v - 4294967296 else v

/-- Modelled from the spec: the smoothing formula
`smoothed = round(prev_percent * α + raw_percent * (1 − α))` stated in the
"Smoothing" paragraph, with `round` being Python's half-to-even rounding. -/
def smooth_step (α : ℚ) (raw prev : ℤ) : ℤ :=
  rhe ((prev : ℚ) * α + (raw : ℚ) * (1 - α))

/-- Configuration of `GoodWePowerLimiter` from `control.py`. -/
structure LimiterCfg where
  mode : String
  export_switch_reg : ℤ
  export_pct_reg : ℤ
  export_pct10_reg : ℤ
  active_pct_reg : ℤ
  always_enabled : Bool

/-- Model of `GoodWePowerLimiter.set_limit_pct` from `control.py`, returned
as the ordered list of (register, value) writes it issues. -/
def set_limit_pct (cfg : LimiterCfg) (enabled : Bool) (pct : ℤ) : List (ℤ × ℤ) :=
  let p := clamp_int pct 0 100
  let en := if cfg.always_enabled then true else enabled
  (cfg.export_switch_reg, if en then 1 else 0) ::
    (if cfg.mode = "active_pct" then [(cfg.active_pct_reg, p)]
     else [(cfg.export_pct_reg, p), (cfg.export_pct10_reg, p * 10)])

/-- The fields of `AmberSnapshot` from `control.py` that the staleness check
consults. -/
structure AmberSnap where
  ts : ℚ
  import_c : Option ℚ
  feedin_c : Option ℚ

/-- Model of `AmberPoller.is_ok` from `control.py`: a snapshot exists, its
age is within the staleness bound, and it carries a feed-in price. -/
def amber_poller_is_ok (now max_stale : ℚ) (snap : Option AmberSnap) : Bool :=
  match snap with
  | none => false
  | some s => decide (now - s.ts ≤ max_stale) && s.feedin_c.isSome

/-- Model of the Amber freshness check in `main` (`control.py` line 1443). -/
def main_amber_ok (age_s max_stale : ℤ) (feed_present : Bool) : Bool :=
  decide (age_s ≤ max_stale) && feed_present

/-- Model of the AlphaESS freshness check in `main` (`control.py` line 1476). -/
def main_alpha_ok (age_s max_stale : ℤ) (pload_present : Bool) : Bool :=
  decide (age_s ≤ max_stale) && pload_present

/-- Model of the backoff computation in `GoodWeModbus._maybe_reconnect`:
`min_backoff * 2^failures`, raised to at least `min_backoff` and capped at
`max_backoff`. -/
def backoff_for (min_backoff max_backoff : ℚ) (failures : ℕ) : ℚ :=
  min max_backoff (max min_backoff (min_backoff * 2 ^ failures))

/-- Reconnect bookkeeping of `GoodWeModbus` from `control.py`. -/
structure ReconnectState where
  reconnect_failures : ℕ
  next_reconnect_ts : ℚ

/-- Model of the effect of `GoodWeModbus.connect` on the reconnect state: a
successful connect resets the failure count and the backoff deadline, a
failed connect leaves them unchanged. -/
def connect_update (st : ReconnectState) (ok : Bool) : ReconnectState :=
  if ok then { reconnect_failures := 0, next_reconnect_ts := 0 } else st

/-- Outcome of one transport attempt inside the retry loops of
`GoodWeModbus._read_holding` / `_read_input` / `_write_register`. -/
inductive AttemptResult where
  | success (regs : List ℤ)
  | protoExc (code : ℤ)
  | ioErr (msg : String)

/-- Model of the `exc_code in (1, 2, 3, 4)` test from `control.py`. -/
def deterministic_exc (c : ℤ) : Bool :=
  c == 1 || c == 2 || c == 3 || c == 4

/-- An attempt outcome that makes the retry loop go around again: any raised
exception, which includes a protocol exception outside codes 1-4. -/
def attempt_continues : AttemptResult → Bool
  | .success _ => false
  | .protoExc c => !deterministic_exc c
  | .ioErr _ => true

/-- Observable trace of one `_read_holding` / `_read_input` /
`_write_register` call: the final result, how many attempts were issued, and
at which attempt indices `_maybe_reconnect` was invoked. -/
structure RetryTrace where
  result : Except String (List ℤ)
  attempts_made : ℕ
  reconnect_calls : List ℕ

/-- Model of the shared retry loop body of `GoodWeModbus._read_holding`,
`_read_input` and `_write_register`: on success return the registers; on a
deterministic protocol exception (codes 1-4) stop at once and fail; on any
other exception record a `_maybe_reconnect` invocation and go around. -/
def retry_go (env : ℕ → AttemptResult) : ℕ → ℕ → List ℕ → RetryTrace
  | 0, i, recs => ⟨.error "request failed", i, recs⟩
  | fuel + 1, i, recs =>
    match env i with
    | .success regs => ⟨.ok regs, i + 1, recs⟩
    | .protoExc c =>
      if deterministic_exc c then ⟨.error "modbus exception response", i + 1, recs⟩
      else retry_go env fuel (i + 1) (recs ++ [i])
    | .ioErr _ => retry_go env fuel (i + 1) (recs ++ [i])

/-- Model of a full retried transport call: `for _ in range(max(1, retries))`
around `retry_go`. -/
def retry_loop (env : ℕ → AttemptResult) (retries : ℕ) : RetryTrace :=
  retry_go env (max 1 retries) 0 []

/-- Runtime snapshot decoded by `GoodWeRuntimeReader` from `control.py`
(`ts` and the untouched optional fields are omitted; `profile_tag` and
`err` model the `raw` dictionary entries the reader fills in). -/
structure GoodWeRuntime where
  gen_power_w : Option ℤ := none
  feed_power_w : Option ℤ := none
  inverter_temp_c : Option ℚ := none
  profile_tag : String := "off"
  err : Option String := none

/-- The transport operations `GoodWeRuntimeReader` uses, as an oracle: each
read either yields a register list or raises. -/
structure ModbusEnv where
  read_input_u16s : ℤ → ℤ → Except String (List ℤ)
  read_u16s : ℤ → ℤ → Except String (List ℤ)

/-- Mutable state of `GoodWeRuntimeReader` from `control.py`. -/
structure ReaderState where
  profile : String
  resolved_profile : Option String
  last_probe_error : Option String

/-- Model of `GoodWeRuntimeReader.__init__`: an explicitly chosen profile is
locked in as the resolved profile. -/
def mk_reader (profile : String) : ReaderState :=
  { profile := profile
    resolved_profile :=
      if profile = "dns" ∨ profile = "mt" ∨ profile = "off" ∨ profile = "none"
          ∨ profile = "disabled"
      then some profile else none
    last_probe_error := none }

/-- Python list indexing: out-of-range access raises. -/
def list_item (regs : List ℤ) (i : ℕ) : Except String ℤ :=
  match regs.get? i with
  | some v => .ok v
  | none => .error "list index out of range"

/-- Model of `GoodWeRuntimeReader._read_regs_best_effort`: try input
registers first, fall back to holding registers. -/
def read_regs_best_effort (env : ModbusEnv) (base cnt : ℤ) : Except String (List ℤ) :=
  match env.read_input_u16s base cnt with
  | .ok regs => .ok regs
  | .error _ => env.read_u16s base cnt

/-- Model of `GoodWeRuntimeReader._read_dns` from `control.py`. -/
def read_dns (env : ModbusEnv) : Except String GoodWeRuntime := do
  let regs ← read_regs_best_effort env 35103 20
  let r0 ← list_item regs 0
  let r1 ← list_item regs 1
  let r2 ← list_item regs 2
  let r3 ← list_item regs 3
  let r10 ← list_item regs 10
  pure { gen_power_w := some (regs_to_i32 r0 r1)
         feed_power_w := some (regs_to_i32 r2 r3)
         inverter_temp_c := some ((u16_to_i16 r10 : ℚ) / 10)
         profile_tag := "dns" }

/-- Model of `GoodWeRuntimeReader._read_mt` from `control.py`. -/
def read_mt (env : ModbusEnv) : Except String GoodWeRuntime := do
  let regs ← read_regs_best_effort env 36001 20
  let r0 ← list_item regs 0
  let r1 ← list_item regs 1
  let r2 ← list_item regs 2
  let r3 ← list_item regs 3
  let r10 ← list_item regs 10
  pure { gen_power_w := some (regs_to_i32 r0 r1)
         feed_power_w := some (regs_to_i32 r2 r3)
         inverter_temp_c := some ((u16_to_i16 r10 : ℚ) / 10)
         profile_tag := "mt" }

/-- Model of `GoodWeRuntimeReader.read` from `control.py`: an error value
models an exception propagating out of `read()`. -/
def reader_read (st : ReaderState) (env : ModbusEnv) :
    Except String GoodWeRuntime × ReaderState :=
  let p := st.profile
  if p = "off" ∨ p = "none" ∨ p = "disabled" then
    (.ok { profile_tag := "off" }, st)
  else if p = "dns" then (read_dns env, st)
  else if p = "mt" then (read_mt env, st)
  else if p = "auto" then
    if st.resolved_profile = some "dns" then (read_dns env, st)
    else if st.resolved_profile = some "mt" then (read_mt env, st)
    else if st.resolved_profile = some "off" ∨ st.resolved_profile = some "none"
        ∨ st.resolved_profile = some "disabled" then
      (.ok { profile_tag := "off", err := st.last_probe_error }, st)
    else
      match read_dns env with
      | .ok rt => (.ok rt, { st with resolved_profile := some "dns" })
      | .error e1 =>
        match read_mt env with
        | .ok rt =>
          (.ok rt, { st with resolved_profile := some "mt", last_probe_error := some e1 })
        | .error e2 =>
          (.ok { profile_tag := "off", err := some e2 },
           { st with resolved_profile := some "off", last_probe_error := some e2 })
  else (.ok { profile_tag := "off", err := some ("unknown profile: " ++ p) }, st)

/-- Whether an `Except` result models a normal (non-raising) return. -/
def except_ok : Except String GoodWeRuntime → Bool
  | .ok _ => true
  | .error _ => false

/-- The AlphaESS snapshot fields consulted by the decision policy in `main`
(`control.py` lines 1520-1594). -/
structure AlphaFields where
  soc_pct : Option ℚ
  pload_w : Option ℤ
  charge_w : ℤ
  grid_import_w : ℤ
  grid_export_w : ℤ
  pgrid_w : Option ℤ

/-- The configuration constants consumed by the decision policy in `main`. -/
structure DecisionCfg where
  rated_w : ℤ
  full_soc_pct : ℚ
  export_allow_w_below_full_soc : ℤ
  grid_feedback_gain : ℚ
  grid_import_bias_w : ℤ
  auto_charge_below_soc_pct : ℚ
  auto_charge_w : ℤ
  auto_charge_max_w : ℤ

/-- Model of the `export_costs` determination in `main` (`control.py` lines
1450-1455): when Amber data is fresh, export costs money iff a feed-in price
is present and below the threshold; when stale, be conservative. -/
def export_costs_of (amber_ok : Bool) (feed_c : Option ℚ) (threshold : ℚ) : Bool :=
  if amber_ok then
    match feed_c with
    | some f => decide (f < threshold)
    | none => false
  else true

/-- Per-tick decision output: the pre-smoothing watt target and the
auto-charge allowance that was added on top of the measured charge. -/
structure DecisionOut where
  target_w : ℤ
  auto_add_w : ℤ

/-- Model of the desired-power decision policy in `main` (`control.py` lines
1520-1597), producing the pre-smoothing `target_w`. -/
def compute_target (cfg : DecisionCfg) (export_costs alpha_ok : Bool)
    (alpha : AlphaFields) (last_limit_state : Option (ℤ × ℤ)) : DecisionOut :=
  if export_costs then
    if !alpha_ok then ⟨0, 0⟩
    else
      let batt_not_full :=
        match alpha.soc_pct with
        | some soc => decide (soc < cfg.full_soc_pct)
        | none => false
      if batt_not_full then
        let allow_export_w := max 0 cfg.export_allow_w_below_full_soc
        let export_w := alpha.grid_export_w
        let import_w := alpha.grid_import_w
        if export_w ≤ allow_export_w then ⟨cfg.rated_w, 0⟩
        else
          let prev_pct_for_target :=
            match last_limit_state with
            | some st => st.2
            | none => 100
          let prev_target_w := rhe ((prev_pct_for_target : ℚ) / 100 * (cfg.rated_w : ℚ))
          let over_w := export_w - allow_export_w
          let t1 := (prev_target_w : ℚ) - cfg.grid_feedback_gain * (over_w : ℚ)
          let t2 := if import_w > 0 then t1 + cfg.grid_feedback_gain * (import_w : ℚ) else t1
          ⟨rhe (max 0 (min (cfg.rated_w : ℚ) t2)), 0⟩
      else
        let pload_w := alpha.pload_w.getD 0
        let measured_charge_w := alpha.charge_w
        let auto :=
          match alpha.soc_pct with
          | some soc =>
            if cfg.auto_charge_w > 0 ∧ cfg.auto_charge_below_soc_pct > 0
                ∧ soc < cfg.auto_charge_below_soc_pct then
              let cap := max 0 (min cfg.auto_charge_w cfg.auto_charge_max_w)
              if cap > measured_charge_w then (cap - measured_charge_w, cap)
              else ((0 : ℤ), measured_charge_w)
            else ((0 : ℤ), measured_charge_w)
          | none => ((0 : ℤ), measured_charge_w)
        let auto_add_w := auto.1
        let desired_charge_w := auto.2
        let base_w := max 0 (pload_w + desired_charge_w)
        let t1 : ℚ := (base_w : ℚ)
        let t2 :=
          match alpha.pgrid_w with
          | some _ =>
            t1 + cfg.grid_feedback_gain * (alpha.grid_import_w : ℚ)
               - cfg.grid_feedback_gain * (alpha.grid_export_w : ℚ)
               - (cfg.grid_import_bias_w : ℚ)
          | none => t1
        ⟨rhe (max 0 (min (cfg.rated_w : ℚ) t2)), auto_add_w⟩
  else ⟨cfg.rated_w, 0⟩

/-- Control-loop state carried between ticks in `main`: the last
successfully written (enabled, percent) pair and the last write timestamp. -/
structure LoopState where
  last_limit_state : Option (ℤ × ℤ)
  last_write_ts : ℚ

/-- Loop configuration consumed by the smoothing / write-gating tail of a
tick in `main`. -/
structure TickCfg where
  rated_w : ℤ
  limit_smoothing : ℚ
  min_pct_step : ℤ
  min_seconds_between_writes : ℚ

/-- Per-tick inputs to the smoothing / write-gating tail of a tick:
the decision policy's watt target, the export verdict, the wall clock, and
whether a device write issued this tick would succeed. -/
structure TickIn where
  target_w : ℤ
  export_costs : Bool
  now : ℚ
  write_ok : Bool

/-- The `prev_pct` selection in `main` (`control.py` line 1602): the
percentage of the last successful write, or the tick's own raw percentage
when nothing has been written yet. -/
def prev_pct_of (st : LoopState) (raw : ℤ) : ℤ :=
  match st.last_limit_state with
  | some ep => ep.2
  | none => raw

/-- Model of the `need_write` determination in `main` (`control.py` lines
1634-1642). -/
def need_write (min_step : ℤ) (last : Option (ℤ × ℤ)) (want_enabled want_pct : ℤ) : Bool :=
  match last with
  | none => true
  | some ep =>
    if ep.1 ≠ want_enabled then true
    else decide (|ep.2 - want_pct| ≥ min_step)

/-- Observable outcome of the tail of one tick of `main`. -/
structure TickOut where
  want_enabled : ℤ
  want_pct : ℤ
  write_attempted : Bool
  st : LoopState

/-- Model of the smoothing / write-gating tail of one tick of `main`
(`control.py` lines 1599-1652): smooth the raw percentage against the last
written one, clamp, gate on the inter-write interval and the minimum step,
and update the loop state only when a write is attempted and succeeds. -/
def tick_step (cfg : TickCfg) (st : LoopState) (tin : TickIn) : TickOut :=
  let target_pct_raw := pct_from_watts tin.target_w cfg.rated_w
  let prev_pct := prev_pct_of st target_pct_raw
  let target_pct :=
    if cfg.limit_smoothing > 0 then
      rhe ((prev_pct : ℚ) * cfg.limit_smoothing
        + (target_pct_raw : ℚ) * (1 - cfg.limit_smoothing))
    else target_pct_raw
  let target_pct := max 0 (min 100 target_pct)
  let want_enabled : ℤ := if tin.export_costs then 1 else 0
  let can_write := decide (tin.now - st.last_write_ts ≥ cfg.min_seconds_between_writes)
  let nw := need_write cfg.min_pct_step st.last_limit_state want_enabled target_pct
  let attempted := can_write && nw
  let st' :=
    if attempted then
      if tin.write_ok then
        { last_limit_state := some (want_enabled, target_pct), last_write_ts := tin.now }
      else st
    else st
  ⟨want_enabled, target_pct, attempted, st'⟩

/- ----------------------- Shared lemmas ----------------------- -/

/-- The rounded value is within one half of the argument. -/
theorem rhe_sub_abs_le (q : ℚ) : |(rhe q : ℚ) - q| ≤ 1/2 := by
  unfold rhe
  set n : ℤ := ⌊q⌋ with hn
  have hf0 : (0 : ℚ) ≤ q - n := by
    have := Int.floor_le q
    linarith
  have hf1 : q - (n : ℚ) < 1 := by
    have := Int.lt_floor_add_one q
    linarith
  by_cases h1 : q - (n : ℚ) < 1/2
  · simp only [h1, if_true]
    rw [abs_sub_comm, abs_of_nonneg hf0]
    linarith
  · simp only [h1, if_false]
    push_neg at h1
    by_cases h2 : (1:ℚ)/2 < q - (n : ℚ)
    · simp only [h2, if_true]
      rw [abs_of_nonneg (by push_cast; linarith)]
      push_cast
      linarith
    · push_neg at h2
      have heq : q - (n : ℚ) = 1/2 := le_antisymm h2 h1
      by_cases h3 : n % 2 = 0
      · simp only [h2.not_lt, if_false, h3, if_true]
        rw [abs_sub_comm, abs_of_nonneg hf0]
        linarith
      · simp only [h2.not_lt, if_false, h3, if_false]
        rw [abs_of_nonneg (by push_cast; linarith)]
        push_cast
        linarith

/-- Rounding an integer is the identity. -/
theorem rhe_intCast (m : ℤ) : rhe (m : ℚ) = m := by
  unfold rhe
  simp [Int.floor_intCast]

/-- A rounded value stays inside an integer interval containing the argument. -/
theorem rhe_mem_Icc {q : ℚ} {a b : ℤ} (ha : (a : ℚ) ≤ q) (hb : q ≤ (b : ℚ)) :
    a ≤ rhe q ∧ rhe q ≤ b := by
  have h := rhe_sub_abs_le q
  rw [abs_le] at h
  constructor
  · by_contra hlt
    push_neg at hlt
    have h2 : rhe q + 1 ≤ a := hlt
    have h3 : ((rhe q : ℤ) : ℚ) + 1 ≤ (a : ℚ) := by exact_mod_cast h2
    linarith
  · by_contra hlt
    push_neg at hlt
    have h2 : b + 1 ≤ rhe q := hlt
    have h3 : ((b : ℤ) : ℚ) + 1 ≤ ((rhe q : ℤ) : ℚ) := by exact_mod_cast h2
    linarith

/-- The percentage conversion always lands in [0, 100]. -/
theorem pct_from_watts_bounds (t r : ℤ) :
    0 ≤ pct_from_watts t r ∧ pct_from_watts t r ≤ 100 := by
  unfold pct_from_watts
  split
  · omega
  · dsimp only
    split
    · omega
    · split <;> omega

/-- Clamping lands between the (ordered) bounds. -/
theorem clamp_int_bounds {lo hi : ℤ} (x : ℤ) (h : lo ≤ hi) :
    lo ≤ clamp_int x lo hi ∧ clamp_int x lo hi ≤ hi := by
  unfold clamp_int
  split
  · omega
  · split <;> omega

/-- One smoothing step strictly shrinks a nonzero error for α ∈ (0, 1/2). -/
theorem smooth_step_err_lt (α : ℚ) (h0 : 0 < α) (h1 : α < 1/2) (raw prev : ℤ)
    (hne : prev ≠ raw) :
    |smooth_step α raw prev - raw| < |prev - raw| := by
  have he : (1 : ℚ) ≤ |((prev - raw : ℤ) : ℚ)| := by
    rw [← Int.cast_abs]
    exact_mod_cast Int.one_le_abs (sub_ne_zero.mpr hne)
  set y : ℚ := (prev : ℚ) * α + (raw : ℚ) * (1 - α) with hy
  have hyr : y - (raw : ℚ) = α * ((prev - raw : ℤ) : ℚ) := by
    push_cast
    ring
  have habs : |(smooth_step α raw prev : ℤ) - raw| = |((smooth_step α raw prev - raw : ℤ) : ℚ)| / 1 := by
    simp
  have hkey : |((smooth_step α raw prev - raw : ℤ) : ℚ)| < |((prev - raw : ℤ) : ℚ)| := by
    have htri : |((smooth_step α raw prev - raw : ℤ) : ℚ)| ≤ |(rhe y : ℚ) - y| + |y - (raw : ℚ)| := by
      have hdecomp : ((smooth_step α raw prev - raw : ℤ) : ℚ) = ((rhe y : ℚ) - y) + (y - (raw : ℚ)) := by
        unfold smooth_step
        push_cast
        ring
      rw [hdecomp]
      exact abs_add _ _
    have h2 : |y - (raw : ℚ)| = α * |((prev - raw : ℤ) : ℚ)| := by
      rw [hyr, abs_mul, abs_of_pos h0]
    have h3 : α * |((prev - raw : ℤ) : ℚ)| < (1/2) * |((prev - raw : ℤ) : ℚ)| := by
      apply mul_lt_mul_of_pos_right h1
      linarith
    have h4 := rhe_sub_abs_le y
    calc |((smooth_step α raw prev - raw : ℤ) : ℚ)|
        ≤ |(rhe y : ℚ) - y| + |y - (raw : ℚ)| := htri
      _ ≤ 1/2 + α * |((prev - raw : ℤ) : ℚ)| := by rw [h2]; linarith
      _ < 1/2 + (1/2) * |((prev - raw : ℤ) : ℚ)| := by linarith
      _ ≤ |((prev - raw : ℤ) : ℚ)| := by linarith
  rw [← Int.cast_abs, ← Int.cast_abs] at hkey
  exact_mod_cast hkey

/-- The raw value is a fixed point of the smoothing step. -/
theorem smooth_step_fixed (α : ℚ) (raw : ℤ) : smooth_step α raw raw = raw := by
  unfold smooth_step
  rw [show ((raw : ℤ) : ℚ) * α + ((raw : ℤ) : ℚ) * (1 - α) = ((raw : ℤ) : ℚ) by ring]
  exact rhe_intCast raw

/-- Iterating the smoothing step for as many ticks as the initial error
magnitude reaches the raw value, for α ∈ (0, 1/2). -/
theorem smooth_step_reaches (α : ℚ) (h0 : 0 < α) (h1 : α < 1/2) :
    ∀ (m : ℕ) (prev raw : ℤ), (prev - raw).natAbs ≤ m →
      (smooth_step α raw)^[m] prev = raw := by
  intro m
  induction m with
  | zero =>
    intro prev raw hle
    have : prev = raw := by omega
    simp [this]
  | succ m ih =>
    intro prev raw hle
    by_cases heq : prev = raw
    · subst heq
      exact Function.iterate_fixed (smooth_step_fixed α prev) (m + 1)
    · rw [Function.iterate_succ_apply]
      apply ih
      have hlt := smooth_step_err_lt α h0 h1 raw prev heq
      have hlt2 : (smooth_step α raw prev - raw).natAbs < (prev - raw).natAbs := by
        have ha := Int.abs_eq_natAbs (smooth_step α raw prev - raw)
        have hb := Int.abs_eq_natAbs (prev - raw)
        omega
      omega

/-- Trace shape of the retry loop when attempt `k` is the first one that is
answered with a deterministic protocol exception and every earlier attempt
failed retryably. -/
theorem retry_go_proto (env : ℕ → AttemptResult) (c : ℤ)
    (hc : deterministic_exc c = true) :
    ∀ (k fuel i : ℕ) (recs : List ℕ), k < fuel →
      (∀ j, j < k → attempt_continues (env (i + j)) = true) →
      env (i + k) = .protoExc c →
      retry_go env fuel i recs =
        ⟨.error "modbus exception response", i + k + 1,
          recs ++ (List.range k).map (i + ·)⟩ := by
  intro k
  induction k with
  | zero =>
    intro fuel i recs hfuel _ henv
    obtain ⟨f, rfl⟩ : ∃ f, fuel = f + 1 := ⟨fuel - 1, by omega⟩
    rw [Nat.add_zero] at henv
    simp [retry_go, henv, hc]
  | succ k ih =>
    intro fuel i recs hfuel hcont henv
    obtain ⟨f, rfl⟩ : ∃ f, fuel = f + 1 := ⟨fuel - 1, by omega⟩
    have h0 : attempt_continues (env i) = true := by
      have := hcont 0 (Nat.succ_pos k)
      simpa using this
    have hrec : retry_go env f (i + 1) (recs ++ [i]) =
        ⟨.error "modbus exception response", i + 1 + k + 1,
          (recs ++ [i]) ++ (List.range k).map (i + 1 + ·)⟩ := by
      apply ih f (i + 1) (recs ++ [i]) (by omega)
      · intro j hj
        have := hcont (j + 1) (by omega)
        rwa [show i + (j + 1) = i + 1 + j by omega] at this
      · rwa [show i + 1 + k = i + (k + 1) by omega]
    have hfun : ((fun x => i + x) ∘ Nat.succ) = fun x => i + 1 + x := by
      funext a
      show i + Nat.succ a = i + 1 + a
      omega
    have hmap : (List.range (k + 1)).map (i + ·) = i :: (List.range k).map (i + 1 + ·) := by
      rw [List.range_succ_eq_map, List.map_cons, List.map_map, hfun]
      simp only [Nat.add_zero]
    have hlist : (recs ++ [i]) ++ (List.range k).map (i + 1 + ·) =
        recs ++ (List.range (k + 1)).map (i + ·) := by
      rw [List.append_assoc, hmap, List.singleton_append]
    have hn : i + 1 + k + 1 = i + (k + 1) + 1 := by omega
    cases henva : env i with
    | success regs =>
      rw [henva] at h0
      simp [attempt_continues] at h0
    | protoExc c2 =>
      rw [henva] at h0
      have hc2 : deterministic_exc c2 = false := by
        simp only [attempt_continues, Bool.not_eq_true'] at h0
        exact h0
      have hstep : retry_go env (f + 1) i recs = retry_go env f (i + 1) (recs ++ [i]) := by
        simp [retry_go, henva, hc2]
      rw [hstep, hrec, hlist, hn]
    | ioErr msg =>
      have hstep : retry_go env (f + 1) i recs = retry_go env f (i + 1) (recs ++ [i]) := by
        simp [retry_go, henva]
      rw [hstep, hrec, hlist, hn]

/- ----------------------- Claim theorems ----------------------- -/

/-- C10: for every integer watt target and rated power, `_pct_from_watts`
returns a percentage in [0, 100], and whenever the rated power is
non-positive it returns 0, so the conversion is total. -/
theorem pct_from_watts_total (t r : ℤ) :
    (0 ≤ pct_from_watts t r ∧ pct_from_watts t r ≤ 100)
    ∧ (r ≤ 0 → pct_from_watts t r = 0) := by
  refine ⟨pct_from_watts_bounds t r, fun hr => ?_⟩
  unfold pct_from_watts
  simp [hr]

/-- Witness for C10 at the concrete input (300, -5). -/
theorem pct_from_watts_total_witness :
    ((0 ≤ pct_from_watts 300 (-5) ∧ pct_from_watts 300 (-5) ≤ 100)
      ∧ ((-5 : ℤ) ≤ 0 → pct_from_watts 300 (-5) = 0)) :=
  pct_from_watts_total 300 (-5)

/-- C5: every `set_limit_pct` call writes the enable register first (forced
to 1 whenever `always_enabled` is set, regardless of the requested flag) and
then writes a clamped percentage p ∈ [0, 100]; in the default mode the
tenths-mirror register receives exactly 10 * p. -/
theorem set_limit_pct_safe (cfg : LimiterCfg) (e : Bool) (pct : ℤ) :
    ∃ p : ℤ, 0 ≤ p ∧ p ≤ 100 ∧
      set_limit_pct cfg e pct =
        (cfg.export_switch_reg, if cfg.always_enabled || e then 1 else 0) ::
          (if cfg.mode = "active_pct" then [(cfg.active_pct_reg, p)]
           else [(cfg.export_pct_reg, p), (cfg.export_pct10_reg, 10 * p)]) := by
  obtain ⟨hlo, hhi⟩ := clamp_int_bounds pct (by omega : (0 : ℤ) ≤ 100)
  refine ⟨clamp_int pct 0 100, hlo, hhi, ?_⟩
  unfold set_limit_pct
  cases hae : cfg.always_enabled <;> cases e <;>
    simp [mul_comm]

/-- C8: a snapshot whose age equals the staleness bound exactly (and which
carries the required field) passes both the Amber and the AlphaESS
freshness checks, while an age one unit beyond fails them. -/
theorem staleness_boundary (ts max_q : ℚ) (max_i : ℤ) :
    amber_poller_is_ok (ts + max_q) max_q (some ⟨ts, none, some 5⟩) = true
    ∧ amber_poller_is_ok (ts + max_q + 1) max_q (some ⟨ts, none, some 5⟩) = false
    ∧ main_amber_ok max_i max_i true = true
    ∧ main_amber_ok (max_i + 1) max_i true = false
    ∧ main_alpha_ok max_i max_i true = true
    ∧ main_alpha_ok (max_i + 1) max_i true = false := by
  refine ⟨?_, ?_, ?_, ?_, ?_, ?_⟩
  · simp only [amber_poller_is_ok, Option.isSome_some, Bool.and_true,
      decide_eq_true_eq]
    linarith
  · simp only [amber_poller_is_ok, Option.isSome_some, Bool.and_true,
      decide_eq_false_iff_not, not_le]
    linarith
  · simp [main_amber_ok]
  · simp [main_amber_ok]
  · simp [main_alpha_ok]
  · simp [main_alpha_ok]

/-- C9: with 0 ≤ min_backoff ≤ max_backoff, the reconnect backoff is
non-decreasing in the consecutive-failure count and never exceeds
max_backoff, and one successful connect resets the count to zero, making the
next computed backoff the minimum again. -/
theorem backoff_monotone_reset (min_b max_b : ℚ) (f g : ℕ) (st : ReconnectState)
    (h0 : 0 ≤ min_b) (h1 : min_b ≤ max_b) (hfg : f ≤ g) :
    backoff_for min_b max_b f ≤ backoff_for min_b max_b g
    ∧ backoff_for min_b max_b g ≤ max_b
    ∧ (connect_update st true).reconnect_failures = 0
    ∧ backoff_for min_b max_b (connect_update st true).reconnect_failures = min_b := by
  have hmono : backoff_for min_b max_b f ≤ backoff_for min_b max_b g := by
    unfold backoff_for
    apply min_le_min le_rfl
    apply max_le_max le_rfl
    apply mul_le_mul_of_nonneg_left _ h0
    exact pow_le_pow_right₀ one_le_two hfg
  have hzero : backoff_for min_b max_b 0 = min_b := by
    unfold backoff_for
    rw [pow_zero, mul_one, max_self, min_eq_right h1]
  refine ⟨hmono, min_le_left _ _, rfl, ?_⟩
  simpa [connect_update] using hzero

/-- Witness for C9 at min_backoff = 1, max_backoff = 30, failures 2 ≤ 5. -/
theorem backoff_monotone_reset_witness :
    backoff_for 1 30 2 ≤ backoff_for 1 30 5
    ∧ backoff_for 1 30 5 ≤ 30
    ∧ (connect_update ⟨7, 99⟩ true).reconnect_failures = 0
    ∧ backoff_for 1 30 (connect_update ⟨7, 99⟩ true).reconnect_failures = 1 :=
  backoff_monotone_reset 1 30 2 5 ⟨7, 99⟩ (by norm_num) (by norm_num) (by norm_num)

/-- C4: when attempt k of a retried transport call is answered with a
deterministic protocol-exception response (code 1, 2, 3 or 4) after k
retryable failures, the retry loop stops right there and fails: exactly k+1
attempts are issued, reconnects were invoked only for the earlier attempts,
and in particular not for the protocol-exception reply. -/
theorem proto_exc_stops_retrying (env : ℕ → AttemptResult) (retries k : ℕ) (c : ℤ)
    (hk : k < max 1 retries)
    (hpre : ∀ j, j < k → attempt_continues (env j) = true)
    (henv : env k = .protoExc c)
    (hc : deterministic_exc c = true) :
    (retry_loop env retries).result = .error "modbus exception response"
    ∧ (retry_loop env retries).attempts_made = k + 1
    ∧ (retry_loop env retries).reconnect_calls = List.range k
    ∧ k ∉ (retry_loop env retries).reconnect_calls := by
  have h := retry_go_proto env c hc k (max 1 retries) 0 [] hk
    (by intro j hj; simpa using hpre j hj) (by simpa using henv)
  rw [retry_loop, h]
  refine ⟨rfl, ?_, ?_, ?_⟩
  · show 0 + k + 1 = k + 1
    omega
  · show [] ++ (List.range k).map (0 + ·) = List.range k
    simp
  · show k ∉ [] ++ (List.range k).map (0 + ·)
    simp only [List.nil_append, List.mem_map, List.mem_range, not_exists, not_and]
    intro a ha
    omega

/-- Witness for C4: attempt 0 fails with an I/O error, attempt 1 is a
protocol exception with code 2, configured retries 3. -/
theorem proto_exc_stops_retrying_witness :
    (retry_loop (fun i => if i = 0 then .ioErr "io" else .protoExc 2) 3).result
        = .error "modbus exception response"
    ∧ (retry_loop (fun i => if i = 0 then .ioErr "io" else .protoExc 2) 3).attempts_made = 2
    ∧ (retry_loop (fun i => if i = 0 then .ioErr "io" else .protoExc 2) 3).reconnect_calls
        = List.range 1
    ∧ 1 ∉ (retry_loop (fun i => if i = 0 then .ioErr "io" else .protoExc 2) 3).reconnect_calls :=
  proto_exc_stops_retrying (fun i => if i = 0 then .ioErr "io" else .protoExc 2) 3 1 2
    (by norm_num) (by decide) (by norm_num) (by decide)

/-- C6: in the battery-full branch (feed-in -1.0 below threshold 0.0, fresh
snapshot, SOC 100 ≥ full threshold 99.5, load 500 W, measured charge 0 W,
grid reading present with import 0 W and export 0 W, import bias 50 W) the
pre-smoothing target is 450 W and no auto-charge allowance is added. -/
theorem battery_full_scenario :
    export_costs_of true (some (-1)) 0 = true
    ∧ (compute_target ⟨5000, 199/2, 50, 1, 50, 90, 1500, 3000⟩ true true
        ⟨some 100, some 500, 0, 0, 0, some 0⟩ none).target_w = 450
    ∧ (compute_target ⟨5000, 199/2, 50, 1, 50, 90, 1500, 3000⟩ true true
        ⟨some 100, some 500, 0, 0, 0, some 0⟩ none).auto_add_w = 0
    ∧ (450 : ℤ) = max 0 (500 + 0 - 50) := by
  refine ⟨by norm_num [export_costs_of], ?_, ?_, by norm_num⟩ <;>
    norm_num [compute_target, rhe]

/-- C7: when the last successfully written state is (enabled = 1, pct = 40)
and the tick computes the same wanted state, no write is attempted (for any
minimum step of at least 1) and the loop state is untouched — the
inter-write interval does not matter. -/
theorem write_suppressed_when_unchanged (cfg : TickCfg) (st : LoopState) (tin : TickIn)
    (hstep : 1 ≤ cfg.min_pct_step)
    (hlast : st.last_limit_state = some (1, 40))
    (hraw : pct_from_watts tin.target_w cfg.rated_w = 40)
    (hexp : tin.export_costs = true) :
    (tick_step cfg st tin).write_attempted = false
    ∧ (tick_step cfg st tin).st = st := by
  have hsm : (if cfg.limit_smoothing > 0 then
      rhe ((prev_pct_of st (pct_from_watts tin.target_w cfg.rated_w) : ℚ) * cfg.limit_smoothing
        + ((pct_from_watts tin.target_w cfg.rated_w : ℤ) : ℚ) * (1 - cfg.limit_smoothing))
      else pct_from_watts tin.target_w cfg.rated_w) = 40 := by
    rw [hraw]
    have hprev : prev_pct_of st 40 = 40 := by
      simp [prev_pct_of, hlast]
    rw [hprev]
    split
    · rw [show ((40 : ℤ) : ℚ) * cfg.limit_smoothing
          + ((40 : ℤ) : ℚ) * (1 - cfg.limit_smoothing) = ((40 : ℤ) : ℚ) by push_cast; ring]
      exact rhe_intCast 40
    · rfl
  have hnw : need_write cfg.min_pct_step st.last_limit_state
      (if tin.export_costs then 1 else 0) 40 = false := by
    rw [hlast, hexp]
    simp [need_write]
    omega
  simp only [tick_step]
  rw [hsm]
  simp [hnw]

/-- Witness for C7: rated 5000 W, α = 1/5, step 1, interval already elapsed
(now 100 vs last write at 0, minimum gap 10), target 2000 W → raw 40 %. -/
theorem write_suppressed_when_unchanged_witness :
    (tick_step ⟨5000, 1/5, 1, 10⟩ ⟨some (1, 40), 0⟩ ⟨2000, true, 100, true⟩).write_attempted = false
    ∧ (tick_step ⟨5000, 1/5, 1, 10⟩ ⟨some (1, 40), 0⟩ ⟨2000, true, 100, true⟩).st
        = ⟨some (1, 40), 0⟩ :=
  write_suppressed_when_unchanged ⟨5000, 1/5, 1, 10⟩ ⟨some (1, 40), 0⟩ ⟨2000, true, 100, true⟩
    (by norm_num) rfl (by norm_num [pct_from_watts, rhe]) rfl

/-- C3 (amended): for every smoothing factor α strictly between 0 and 1/2,
holding the raw percentage constant makes the error magnitude strictly
shrink on every tick while it is nonzero, and after |prev − raw| ticks the
smoothed value has converged to the raw value. For α in [1/2, 1) the
original claim fails: half-to-even rounding can leave the smoothed value
one unit away from the raw value forever. -/
theorem smoothing_converges (α : ℚ) (raw prev : ℤ) (h0 : 0 < α) (h1 : α < 1/2) :
    (prev ≠ raw → |smooth_step α raw prev - raw| < |prev - raw|)
    ∧ (smooth_step α raw)^[(prev - raw).natAbs] prev = raw :=
  ⟨fun hne => smooth_step_err_lt α h0 h1 raw prev hne,
   smooth_step_reaches α h0 h1 _ prev raw le_rfl⟩

/-- Witness for C3 at α = 1/4, raw 50, starting percentage 100. -/
theorem smoothing_converges_witness :
    ((100 : ℤ) ≠ 50 → |smooth_step (1/4) 50 100 - 50| < |(100 : ℤ) - 50|)
    ∧ (smooth_step (1/4) 50)^[((100 : ℤ) - 50).natAbs] 100 = 50 :=
  smoothing_converges (1/4) 50 100 (by norm_num) (by norm_num)

/-- C3 counterexample: α = 1/2 lies strictly between 0 and 1, yet with raw
51 and previous value 50 the smoothed value is again 50 (round-half-to-even
sends 50.5 to 50), so the error magnitude does not strictly decrease and
the sequence never converges to 51. -/
theorem smoothing_converges_counterexample :
    ((0 : ℚ) < 1/2 ∧ (1/2 : ℚ) < 1)
    ∧ smooth_step (1/2) 51 50 = 50
    ∧ ¬ |smooth_step (1/2) 51 50 - 51| < |(50 : ℤ) - 51| := by
  have h : smooth_step (1/2) 51 50 = 50 := by
    norm_num [smooth_step, rhe]
  refine ⟨by norm_num, h, ?_⟩
  rw [h]
  norm_num

/-- C1 (amended): on every tick the wanted percentage equals
round(prev · α + raw · (1 − α)) where prev is the percentage of the last
SUCCESSFUL write (or the tick's own raw percentage when nothing has been
written yet), α = 0 yields the raw percentage unchanged, and a tick whose
write fails leaves the stored last-written state untouched — a failed
write's commanded percentage is not fed into the next tick. -/
theorem tick_smoothing (cfg : TickCfg) (st : LoopState) (tin : TickIn)
    (h0 : 0 ≤ cfg.limit_smoothing) (h1 : cfg.limit_smoothing < 1)
    (hprev : 0 ≤ prev_pct_of st (pct_from_watts tin.target_w cfg.rated_w)
      ∧ prev_pct_of st (pct_from_watts tin.target_w cfg.rated_w) ≤ 100) :
    (0 < cfg.limit_smoothing →
      (tick_step cfg st tin).want_pct
        = smooth_step cfg.limit_smoothing (pct_from_watts tin.target_w cfg.rated_w)
            (prev_pct_of st (pct_from_watts tin.target_w cfg.rated_w)))
    ∧ (cfg.limit_smoothing = 0 →
      (tick_step cfg st tin).want_pct = pct_from_watts tin.target_w cfg.rated_w)
    ∧ (tin.write_ok = false → (tick_step cfg st tin).st = st) := by
  obtain ⟨hp0, hp1⟩ := hprev
  obtain ⟨hr0, hr1⟩ := pct_from_watts_bounds tin.target_w cfg.rated_w
  refine ⟨?_, ?_, ?_⟩
  · intro hpos
    have hq0 : ((0 : ℤ) : ℚ) ≤ (prev_pct_of st (pct_from_watts tin.target_w cfg.rated_w) : ℚ)
        * cfg.limit_smoothing
        + (pct_from_watts tin.target_w cfg.rated_w : ℚ) * (1 - cfg.limit_smoothing) := by
      have ha : (0 : ℚ) ≤ (prev_pct_of st (pct_from_watts tin.target_w cfg.rated_w) : ℚ) := by
        exact_mod_cast hp0
      have hb : (0 : ℚ) ≤ (pct_from_watts tin.target_w cfg.rated_w : ℚ) := by
        exact_mod_cast hr0
      have hc : (0 : ℚ) ≤ 1 - cfg.limit_smoothing := by linarith
      push_cast
      positivity
    have hq1 : (prev_pct_of st (pct_from_watts tin.target_w cfg.rated_w) : ℚ)
        * cfg.limit_smoothing
        + (pct_from_watts tin.target_w cfg.rated_w : ℚ) * (1 - cfg.limit_smoothing)
        ≤ ((100 : ℤ) : ℚ) := by
      have ha : (prev_pct_of st (pct_from_watts tin.target_w cfg.rated_w) : ℚ) ≤ 100 := by
        exact_mod_cast hp1
      have hb : (pct_from_watts tin.target_w cfg.rated_w : ℚ) ≤ 100 := by
        exact_mod_cast hr1
      have hc : (0 : ℚ) ≤ 1 - cfg.limit_smoothing := by linarith
      have h2 : (prev_pct_of st (pct_from_watts tin.target_w cfg.rated_w) : ℚ)
          * cfg.limit_smoothing ≤ 100 * cfg.limit_smoothing :=
        mul_le_mul_of_nonneg_right ha h0
      have h3 : (pct_from_watts tin.target_w cfg.rated_w : ℚ)
          * (1 - cfg.limit_smoothing) ≤ 100 * (1 - cfg.limit_smoothing) :=
        mul_le_mul_of_nonneg_right hb hc
      push_cast
      linarith
    have hb := rhe_mem_Icc hq0 hq1
    simp only [tick_step]
    rw [if_pos hpos]
    show (0 : ℤ) ⊔ 100 ⊓ rhe _ = _
    rw [min_eq_right hb.2, max_eq_right hb.1]
    rfl
  · intro hz
    have hneg : ¬(cfg.limit_smoothing > 0) := by
      rw [hz]
      exact lt_irrefl 0
    simp only [tick_step]
    rw [if_neg hneg]
    show (0 : ℤ) ⊔ 100 ⊓ pct_from_watts tin.target_w cfg.rated_w = _
    rw [min_eq_right hr1, max_eq_right hr0]
  · intro hwf
    simp only [tick_step, hwf, Bool.false_eq_true, if_false, ite_self]

/-- Witness for C1 at α = 1/5, last written (1, 40), target 2500 W of 5000 W
rated, with a failing write. -/
theorem tick_smoothing_witness :
    ((0 : ℚ) < 1/5 →
      (tick_step ⟨5000, 1/5, 1, 10⟩ ⟨some (1, 40), 0⟩ ⟨2500, true, 100, false⟩).want_pct
        = smooth_step (1/5) (pct_from_watts 2500 5000)
            (prev_pct_of ⟨some (1, 40), 0⟩ (pct_from_watts 2500 5000)))
    ∧ ((1/5 : ℚ) = 0 →
      (tick_step ⟨5000, 1/5, 1, 10⟩ ⟨some (1, 40), 0⟩ ⟨2500, true, 100, false⟩).want_pct
        = pct_from_watts 2500 5000)
    ∧ (false = false →
      (tick_step ⟨5000, 1/5, 1, 10⟩ ⟨some (1, 40), 0⟩ ⟨2500, true, 100, false⟩).st
        = ⟨some (1, 40), 0⟩) :=
  tick_smoothing ⟨5000, 1/5, 1, 10⟩ ⟨some (1, 40), 0⟩ ⟨2500, true, 100, false⟩
    (by norm_num) (by norm_num) (by norm_num [prev_pct_of])

/-- C1 counterexample: with α = 1/2, last written (1, 0) and raw percentage
100, the first tick commands 50 but its write fails and the stored state
stays (1, 0); the claim demands the next tick smooth against the commanded
50 — round(50 · 1/2 + 100 · 1/2) = 75 — yet the code commands 50 again. -/
theorem tick_smoothing_counterexample :
    (tick_step ⟨5000, 1/2, 1, 10⟩ ⟨some (1, 0), 0⟩ ⟨5000, true, 100, false⟩).want_pct = 50
    ∧ (tick_step ⟨5000, 1/2, 1, 10⟩ ⟨some (1, 0), 0⟩ ⟨5000, true, 100, false⟩).write_attempted
        = true
    ∧ (tick_step ⟨5000, 1/2, 1, 10⟩ ⟨some (1, 0), 0⟩ ⟨5000, true, 100, false⟩).st
        = ⟨some (1, 0), 0⟩
    ∧ (tick_step ⟨5000, 1/2, 1, 10⟩
        (tick_step ⟨5000, 1/2, 1, 10⟩ ⟨some (1, 0), 0⟩ ⟨5000, true, 100, false⟩).st
        ⟨5000, true, 200, true⟩).want_pct = 50
    ∧ smooth_step (1/2) 100 50 = 75
    ∧ (50 : ℤ) ≠ 75 := by
  have hraw : pct_from_watts 5000 5000 = 100 := by
    norm_num [pct_from_watts, rhe]
  have htick : tick_step ⟨5000, 1/2, 1, 10⟩ ⟨some (1, 0), 0⟩ ⟨5000, true, 100, false⟩
      = ⟨1, 50, true, ⟨some (1, 0), 0⟩⟩ := by
    simp only [tick_step, hraw]
    norm_num [prev_pct_of, need_write, rhe]
  have htick2 : tick_step ⟨5000, 1/2, 1, 10⟩ ⟨some (1, 0), 0⟩ ⟨5000, true, 200, true⟩
      = ⟨1, 50, true, ⟨some (1, 50), 200⟩⟩ := by
    simp only [tick_step, hraw]
    norm_num [prev_pct_of, need_write, rhe]
  refine ⟨by rw [htick], by rw [htick], by rw [htick], ?_, ?_, by norm_num⟩
  · rw [htick]
    show (tick_step ⟨5000, 1/2, 1, 10⟩ ⟨some (1, 0), 0⟩ ⟨5000, true, 200, true⟩).want_pct = 50
    rw [htick2]
  · norm_num [smooth_step, rhe]

/-- C2 (amended): exceptions are swallowed only while auto mode is still
probing: a reader in "auto" mode with no resolved profile never lets a
transport or decode exception out of read() — every transport behaviour
yields a normally returned snapshot (placeholder when both probes fail).
With an explicitly configured or already-resolved active profile the
exception propagates to the caller instead. -/
theorem reader_auto_probe_no_raise (st : ReaderState) (env : ModbusEnv)
    (hp : st.profile = "auto") (hr : st.resolved_profile = none) :
    except_ok (reader_read st env).1 = true := by
  obtain ⟨p, rp, le⟩ := st
  dsimp only at hp hr
  subst hp
  subst hr
  simp only [reader_read]
  rw [if_neg (by decide : ¬("auto" = "off" ∨ "auto" = "none" ∨ "auto" = "disabled"))]
  rw [if_neg (by decide : ¬("auto" = "dns"))]
  rw [if_neg (by decide : ¬("auto" = "mt"))]
  rw [if_pos trivial]
  rw [if_neg (by simp : ¬((none : Option String) = some "dns"))]
  rw [if_neg (by simp : ¬((none : Option String) = some "mt"))]
  rw [if_neg (by simp : ¬((none : Option String) = some "off"
    ∨ (none : Option String) = some "none" ∨ (none : Option String) = some "disabled"))]
  cases hdns : read_dns env with
  | ok rt => simp [except_ok]
  | error e1 =>
    cases hmt : read_mt env with
    | ok rt => simp [except_ok]
    | error e2 => simp [except_ok]

/-- Witness for C2: an unresolved auto-mode reader against a transport where
every read raises still returns normally. -/
theorem reader_auto_probe_no_raise_witness :
    except_ok (reader_read ⟨"auto", none, none⟩
      ⟨fun _ _ => .error "io", fun _ _ => .error "io"⟩).1 = true :=
  reader_auto_probe_no_raise ⟨"auto", none, none⟩
    ⟨fun _ _ => .error "io", fun _ _ => .error "io"⟩ rfl rfl

/-- C2 counterexample: with the profile explicitly configured to "dns" (an
active profile, as `__init__` locks it in), a transport failure propagates
out of read() instead of surfacing as a placeholder snapshot. -/
theorem reader_active_profile_raises :
    mk_reader "dns" = ⟨"dns", some "dns", none⟩
    ∧ except_ok (reader_read (mk_reader "dns")
        ⟨fun _ _ => .error "io", fun _ _ => .error "io"⟩).1 = false := by
  constructor
  · rfl
  · rfl
